import Mathlib

/-!
Shallow embedding of the vault RBAC assignment function app
(`function_app.py`, `VaultRbacProcessor/vault_role_manager.py`,
`StorageRoleManager/storage_role_manager.py`).

Strings are modelled by Lean `String`; the Python string operations used by
the code (`in` substring test, `.lower()`, `.replace('-','')`, slicing,
`.split('/')`) are embedded as executable functions on `List Char` wrapped
into `String`.  Provider and directory I/O is passed in explicitly: the
current role-assignment list at a scope is a `List Assignment` argument, the
outcome of the one `create` call a run may issue is a `CreateResult`
argument, and delete failures are an oracle `String → Bool` keyed by
assignment name.
-/

/-- Embedding of Python `needle in hay` on lists of characters:
`listPrefOf n l` is true when `n` is a prefix of `l`. -/
def listPrefOf : List Char → List Char → Bool
  | [], _ => true
  | _ :: _, [] => false
  | a :: as, b :: bs => a == b && listPrefOf as bs

/-- True when `n` occurs as a contiguous sublist of the second argument. -/
def listSub (n : List Char) : List Char → Bool
  | [] => listPrefOf n []
  | h :: t => listPrefOf n (h :: t) || listSub n t

/-- Python `needle in hay` for strings. -/
def strContains (hay needle : String) : Bool :=
  listSub needle.data hay.data

/-- Python `s.lower()` (character-wise lowering, as used on ASCII ids/names). -/
def lowerStr (s : String) : String :=
  String.mk (s.data.map Char.toLower)

/-- Python `d.get(key)` on a dictionary modelled as an association list. -/
def lookupTag (tags : List (String × String)) (key : String) : Option String :=
  (tags.find? (fun p => p.1 == key)).map (fun p => p.2)

/-- Python `s.split(sep)` for a single-character separator. -/
def splitOnChar (sep : Char) : List Char → List (List Char)
  | [] => [[]]
  | c :: rest =>
    let r := splitOnChar sep rest
    if c == sep then [] :: r
    else
      match r with
      | [] => [[c]]
      | h :: t => (c :: h) :: t

/-- Python `resource_id.split('/')[-1]` (the last path segment). -/
def lastSegment (s : String) : String :=
  String.mk ((splitOnChar '/' s.data).getLastD [])

/-- Azure Owner role id constant (`owner_role_id` in the sources). -/
def ownerRoleId : String := "8e3af657-a8ff-443c-a75c-2fe8c4bcb635"

/-- Azure Key Vault Administrator role id constant (`admin_role_id`). -/
def adminRoleId : String := "00482a5a-887f-4fb3-b363-3b7fe8e74483"

/-- Role-definition path built by the code:
`f"/subscriptions/{subscription_id}/providers/Microsoft.Authorization/roleDefinitions/{role_id}"`. -/
def roleDefinitionPath (subscriptionId roleId : String) : String :=
  "/subscriptions/" ++ subscriptionId ++ "/providers/Microsoft.Authorization/roleDefinitions/" ++ roleId

/-- Python `guid_str.replace('-', '')`. -/
def removeHyphensL (t : List Char) : List Char :=
  t.filter (fun c => c != '-')

/-- The slicing `f"{s[0:8]}-{s[8:12]}-{s[12:16]}-{s[16:20]}-{s[20:32]}"` from
`_normalize_guid`. -/
def formatGuidL (t : List Char) : List Char :=
  t.take 8 ++ '-' :: ((t.drop 8).take 4 ++ '-' :: ((t.drop 12).take 4 ++ '-' :: ((t.drop 16).take 4 ++ '-' :: (t.drop 20).take 12)))

/-- Embedding of `_normalize_guid` (identical in `VaultRoleManager` and
`StorageRoleManager`): falsy (empty) input is returned as is; otherwise all
hyphens are removed and, when exactly 32 characters remain, the result is
re-hyphenated in the 8-4-4-4-12 shape, else the hyphen-stripped string is
returned. -/
def normalize_guid (s : String) : String :=
  if s = "" then s
  else
    let t := removeHyphensL s.data
    if t.length = 32 then String.mk (formatGuidL t) else String.mk t

/-- Hex digit predicate, used only to state the spec's "hex-digit length"
side conditions; the code itself never checks hexness. -/
def isHexDigitB (c : Char) : Bool :=
  c.isDigit || ('a' ≤ c && c ≤ 'f') || ('A' ≤ c && c ≤ 'F')

/-- One role assignment as listed at a scope by the access-control provider.
`name` is the provider storage key (`role_assignment_name`); logical identity
for the code's comparisons is `(principalId, roleDefinitionId)`. -/
structure Assignment where
  name : String
  roleDefinitionId : String
  principalId : String
deriving DecidableEq, Repr

/-- Result the access-control provider gives to the single `create` call a
reconciliation run may issue: success, an `HttpResponseError` carrying a
message string, or any other exception. -/
inductive CreateResult where
  | ok
  | httpErr (msg : String)
  | exc
deriving DecidableEq, Repr

/-- Observable outcome of one reconciliation run: the returned boolean, the
number of `create` calls issued, the list of assignment names on which
`delete` was called (in order), and the provider state afterwards. -/
structure ReconcileOutcome where
  success : Bool
  creates : Nat
  deletes : List String
  finalAssignments : List Assignment
deriving DecidableEq, Repr

/-- The best-effort deletion loop: each name is deleted in turn; a failing
delete (per the `deleteFails` oracle) raises inside its `try` and leaves the
provider state unchanged for that name. -/
def applyDeletes (deleteFails : String → Bool) : List Assignment → List String → List Assignment
  | st, [] => st
  | st, n :: rest =>
    applyDeletes deleteFails (if deleteFails n then st else st.filter (fun b => b.name != n)) rest

/-- Core of `VaultRoleManager.assign_role_to_user` after principal resolution
and normalization (lines 102-218): scan the scope's assignments, skip lesser
roles when Owner is held (except Administrator), return early on an exact
match, otherwise create, and in the Owner case best-effort delete the
redundant assignments collected during the scan. -/
def reconcile_at_scope (assignments : List Assignment) (role_definition_id principal_id : String)
    (createRes : CreateResult) (deleteFails : String → Bool) (freshName : String) : ReconcileOutcome :=
  let is_owner_role := strContains role_definition_id ownerRoleId
  let is_admin_role := strContains role_definition_id adminRoleId
  let has_owner_role := assignments.any (fun a => a.principalId == principal_id && strContains a.roleDefinitionId ownerRoleId)
  let role_already_assigned := assignments.any (fun a => a.principalId == principal_id && a.roleDefinitionId == role_definition_id)
  let redundant := if is_owner_role then assignments.filter (fun a => a.principalId == principal_id && a.roleDefinitionId != role_definition_id) else []
  if !is_owner_role && has_owner_role && !is_admin_role then
    { success := true, creates := 0, deletes := [], finalAssignments := assignments }
  else if role_already_assigned then
    if is_owner_role && !redundant.isEmpty then
      { success := true, creates := 0, deletes := redundant.map (fun a => a.name),
        finalAssignments := applyDeletes deleteFails assignments (redundant.map (fun a => a.name)) }
    else
      { success := true, creates := 0, deletes := [], finalAssignments := assignments }
  else
    match createRes with
    | .ok =>
      let st1 := assignments ++ [{ name := freshName, roleDefinitionId := role_definition_id, principalId := principal_id }]
      if is_owner_role && !redundant.isEmpty then
        { success := true, creates := 1, deletes := redundant.map (fun a => a.name),
          finalAssignments := applyDeletes deleteFails st1 (redundant.map (fun a => a.name)) }
      else
        { success := true, creates := 1, deletes := [], finalAssignments := st1 }
    | .httpErr msg =>
      if strContains msg "already exists" then
        { success := true, creates := 1, deletes := [], finalAssignments := assignments }
      else if strContains msg "PrincipalNotFound" then
        { success := true, creates := 1, deletes := [], finalAssignments := assignments }
      else
        { success := false, creates := 1, deletes := [], finalAssignments := assignments }
    | .exc =>
      { success := false, creates := 1, deletes := [], finalAssignments := assignments }

/-- Embedding of `VaultRoleManager.assign_role_to_user` (lines 74-218):
resolve the principal (directory lookup when the input is not a GUID, via
the `isGuid`/`resolveUpn` oracles), normalize it, then reconcile the scope.
A failed resolution returns `False` without touching the provider. -/
def assign_role_to_user (isGuid : String → Bool) (resolveUpn : String → Option String)
    (assignments : List Assignment) (role_definition_id principal_id_in : String)
    (createRes : CreateResult) (deleteFails : String → Bool) (freshName : String) : ReconcileOutcome :=
  match (if isGuid principal_id_in then some principal_id_in else resolveUpn principal_id_in) with
  | none => { success := false, creates := 0, deletes := [], finalAssignments := assignments }
  | some pid0 => reconcile_at_scope assignments role_definition_id (normalize_guid pid0) createRes deleteFails freshName

/-- One storage account as enumerated by `list_by_resource_group`.  Python's
`account.tags` may be `None` or `{}`; both are falsy and both make
`tags.get('AssociatedVault')` unequal to a vault name, so a plain (possibly
empty) association list is a faithful model. -/
structure StorageAccount where
  id : String
  name : String
  tags : List (String × String)
deriving DecidableEq, Repr

/-- Embedding of `StorageRoleManager._matches_naming_convention`: lowercase
both names and test whether any of the four patterns built from the vault
name occurs in the storage name. -/
def matches_naming_convention (storage_name vault_name : String) : Bool :=
  let storage_lower := lowerStr storage_name
  let vault_lower := lowerStr vault_name
  let patterns := [vault_lower ++ "storage", vault_lower ++ "stor", "stor" ++ vault_lower, vault_lower ++ "st"]
  patterns.any (fun pattern => strContains storage_lower pattern)

/-- Tag-based association test from `discover_associated_storage_accounts`
line 73: `account.tags and account.tags.get('AssociatedVault') == vault_name`. -/
def tagMatch (account : StorageAccount) (vault_name : String) : Bool :=
  lookupTag account.tags "AssociatedVault" == some vault_name

/-- Core of `StorageRoleManager.discover_associated_storage_accounts`
(lines 65-94), after the vault resource id has been parsed and the resource
group enumerated into `accounts_in_rg`: collect the ids of tag-matched or
name-matched accounts, and if none matched while the group is non-empty,
fall back to every account id in the group. -/
def discover_associated_storage_accounts (accounts_in_rg : List StorageAccount) (vault_name : String) : List String :=
  let storage_accounts := (accounts_in_rg.filter (fun account => tagMatch account vault_name || matches_naming_convention account.name vault_name)).map (fun account => account.id)
  if storage_accounts.isEmpty && !accounts_in_rg.isEmpty then
    accounts_in_rg.map (fun account => account.id)
  else
    storage_accounts

/-- Storage built-in role id constants from `StorageRoleManager`. -/
def STORAGE_ACCOUNT_CONTRIBUTOR_ROLE_ID : String := "17d1049b-9a84-46fb-8f53-869881c3d3ab"

/-- Storage Blob Data Owner role id constant. -/
def STORAGE_BLOB_DATA_OWNER_ROLE_ID : String := "b7e6dc6d-f1e8-4753-8033-0f276bb0955c"

/-- Storage Blob Data Contributor role id constant. -/
def STORAGE_BLOB_DATA_CONTRIBUTOR_ROLE_ID : String := "ba92f5b4-2d11-453d-a403-e96b0029c9fe"

/-- Embedding of `get_storage_role_assignments_for_vault_role`: the vault
role id string is tested for containing the Owner guid, then the
Administrator guid; anything else maps to the empty list (logged as a
warning, not an error). -/
def get_storage_role_assignments_for_vault_role (vault_role_id : String) : List String :=
  if strContains vault_role_id ownerRoleId then
    [STORAGE_ACCOUNT_CONTRIBUTOR_ROLE_ID, STORAGE_BLOB_DATA_OWNER_ROLE_ID]
  else if strContains vault_role_id adminRoleId then
    [STORAGE_BLOB_DATA_CONTRIBUTOR_ROLE_ID]
  else
    []

/-- Embedding of `StorageRoleManager._assign_role_to_storage_account`
(lines 195-266): resolve and normalize the principal, return `True` when the
exact (principal, role-definition) pair is already assigned at the scope,
otherwise create; an `HttpResponseError` whose message contains
"already exists" or "PrincipalNotFound" is success, every other error is
`False`.  The pair is the returned boolean and the provider state after. -/
def assign_role_to_storage_account (isGuid : String → Bool) (resolveUpn : String → Option String)
    (assignments : List Assignment) (role_definition_id principal_id_in : String)
    (createRes : CreateResult) (freshName : String) : Bool × List Assignment :=
  match (if isGuid principal_id_in then some principal_id_in else resolveUpn principal_id_in) with
  | none => (false, assignments)
  | some pid0 =>
    let principal_id := normalize_guid pid0
    if assignments.any (fun a => a.principalId == principal_id && a.roleDefinitionId == role_definition_id) then
      (true, assignments)
    else
      match createRes with
      | .ok => (true, assignments ++ [{ name := freshName, roleDefinitionId := role_definition_id, principalId := principal_id }])
      | .httpErr msg =>
        if strContains msg "already exists" then (true, assignments)
        else if strContains msg "PrincipalNotFound" then (true, assignments)
        else (false, assignments)
      | .exc => (false, assignments)

/-- Embedding of `StorageRoleManager.assign_storage_roles_to_user`
(lines 151-193): empty input or an unmapped vault role short-circuits to an
empty result map; otherwise every storage account gets an entry keyed by its
last path segment, holding one boolean per mapped storage role.  The
per-call outcome is the `perCall` oracle (the result of
`_assign_role_to_storage_account` for that account and role); the loop
records every result and never aborts on a `False`. -/
def assign_storage_roles_to_user (perCall : String → String → Bool)
    (storage_resource_ids : List String) (vault_role_definition_id : String) : List (String × List (String × Bool)) :=
  if storage_resource_ids.isEmpty then []
  else
    let storage_role_ids := get_storage_role_assignments_for_vault_role vault_role_definition_id
    if storage_role_ids.isEmpty then []
    else
      storage_resource_ids.map (fun sid =>
        (lastSegment sid, storage_role_ids.map (fun rid => (rid, perCall sid rid))))

/-- Vault metadata as `get_vault_info` would return it once awaited; only the
tags take part in the orchestrator's decisions. -/
structure VaultInfo where
  tags : List (String × String)
deriving DecidableEq, Repr

/-- The value bound at `function_app.py` line 121.  `get_vault_info` is an
`async def` but is invoked there WITHOUT `await`, so the bound value is a
coroutine object: truthy as a Python value, and not a `dict`.  `pending` is
the result the coroutine would produce if it were awaited. -/
inductive PyVaultValue where
  | coroutine (pending : Option VaultInfo)
deriving DecidableEq, Repr

/-- Python truthiness of the bound value (`if not vault_info:`): a coroutine
object is always truthy. -/
def pyTruthy : PyVaultValue → Bool
  | .coroutine _ => true

/-- The `isinstance(vault_info, dict)` test of line 135: a coroutine object
is never a dict, so this yields `none` whatever the pending result is. -/
def pyAsDict : PyVaultValue → Option VaultInfo
  | .coroutine _ => none

/-- Effectful operations the orchestrator can issue after the creator check;
each `assignVaultRole`/`assignStorageRoles` entry is an invocation of a
reconciler, which is the only source of role-assignment mutations. -/
inductive Call where
  | assignVaultRole (role_definition_id : String)
  | discoverStorage
  | assignStorageRoles (vault_role_definition_id : String)
deriving DecidableEq, Repr

/-- The JSON response body built at lines 221-233.  `isCreator` is Python's
`creator_id and creator_id.lower() == user_id.lower()`: `none` models the
falsy (`None` or empty) creator tag, `some b` the boolean. -/
structure RbacResponse where
  success : Bool
  ownerRoleAssigned : Bool
  adminRoleAssigned : Bool
  isCreator : Option Bool
  storageDiscovered : Nat
  storageAssignments : List (String × List (String × Bool))
  storageSuccess : Bool
deriving DecidableEq, Repr

/-- Outcome of one orchestrator run: the 404 branch, the 403 creator-denial
branch, or a completed run with its response body. -/
inductive OrchResult where
  | vaultNotFound
  | unauthorized (userId creatorId : String)
  | completed (resp : RbacResponse)
deriving DecidableEq, Repr

/-- True exactly on the `completed` constructor. -/
def OrchResult.isCompleted : OrchResult → Bool
  | .completed _ => true
  | _ => false

/-- Results of the collaborator calls the orchestrator makes after the
creator check: vault-scope reconciliation per role-definition id, storage
discovery, and the storage cascade per vault role-definition id. -/
structure OrchOracles where
  assignRole : String → Bool
  discovered : List String
  storageAssign : String → List (String × List (String × Bool))

/-- Embedding of `direct_vault_rbac_processor` from line 121 on (after token
validation and body parsing): bind the un-awaited `get_vault_info` value,
run the creator check on what `isinstance` yields, reconcile Owner then
Administrator on the vault scope, discover storage accounts, cascade storage
roles from whichever vault role succeeded, and aggregate.  Returns the
outcome together with the ordered list of collaborator calls issued. -/
def direct_vault_rbac_processor (o : OrchOracles) (vault_info : PyVaultValue)
    (user_id subscription_id : String) : OrchResult × List Call :=
  if !pyTruthy vault_info then (.vaultNotFound, [])
  else
    let vault_tags := match pyAsDict vault_info with
      | some vi => vi.tags
      | none => []
    let creator_id := lookupTag vault_tags "CreatedByID"
    let denied := match creator_id with
      | none => false
      | some c => if c = "" then false else !(lowerStr c == lowerStr user_id)
    if denied then (.unauthorized user_id (creator_id.getD ""), [])
    else
      let owner_role_definition_id := roleDefinitionPath subscription_id ownerRoleId
      let admin_role_definition_id := roleDefinitionPath subscription_id adminRoleId
      let owner_success := o.assignRole owner_role_definition_id
      let admin_success := o.assignRole admin_role_definition_id
      let storage_accounts := o.discovered
      let storage_results :=
        if !storage_accounts.isEmpty then
          if owner_success then o.storageAssign owner_role_definition_id
          else if admin_success then o.storageAssign admin_role_definition_id
          else []
        else []
      let storage_success := storage_results.all (fun p => p.2.all (fun q => q.2))
      let calls := [Call.assignVaultRole owner_role_definition_id,
                    Call.assignVaultRole admin_role_definition_id,
                    Call.discoverStorage] ++
        (if !storage_accounts.isEmpty then
          if owner_success then [Call.assignStorageRoles owner_role_definition_id]
          else if admin_success then [Call.assignStorageRoles admin_role_definition_id]
          else []
        else [])
      let isCreator : Option Bool := match creator_id with
        | none => none
        | some c => if c = "" then none else some (lowerStr c == lowerStr user_id)
      (.completed { success := owner_success && admin_success && storage_success,
                    ownerRoleAssigned := owner_success,
                    adminRoleAssigned := admin_success,
                    isCreator := isCreator,
                    storageDiscovered := storage_accounts.length,
                    storageAssignments := storage_results,
                    storageSuccess := storage_success }, calls)

/-! ## Helper lemmas -/

theorem removeHyphensL_idem (t : List Char) :
    removeHyphensL (removeHyphensL t) = removeHyphensL t := by
  simp [removeHyphensL, List.filter_filter]

theorem removeHyphensL_of_forall (t : List Char) (h : ∀ c ∈ t, (c != '-') = true) :
    removeHyphensL t = t :=
  List.filter_eq_self.mpr h

theorem chunks_assemble (t : List Char) (hlen : t.length = 32) :
    t.take 8 ++ ((t.drop 8).take 4 ++ ((t.drop 12).take 4 ++ ((t.drop 16).take 4 ++ (t.drop 20).take 12))) = t := by
  have h20 : (t.drop 20).take 12 = t.drop 20 := by
    apply List.take_of_length_le
    simp [hlen]
  have h16 : (t.drop 16).take 4 ++ t.drop 20 = t.drop 16 := by
    have h := List.take_append_drop 4 (t.drop 16)
    rwa [List.drop_drop] at h
  have h12 : (t.drop 12).take 4 ++ t.drop 16 = t.drop 12 := by
    have h := List.take_append_drop 4 (t.drop 12)
    rwa [List.drop_drop] at h
  have h8 : (t.drop 8).take 4 ++ t.drop 12 = t.drop 8 := by
    have h := List.take_append_drop 4 (t.drop 8)
    rwa [List.drop_drop] at h
  rw [h20, h16, h12, h8, List.take_append_drop]

theorem removeHyphensL_formatGuidL (t : List Char) (hlen : t.length = 32)
    (hh : removeHyphensL t = t) : removeHyphensL (formatGuidL t) = t := by
  have hmem : ∀ c ∈ t, (c != '-') = true := List.filter_eq_self.mp hh
  have hpiece : ∀ (m n : Nat), removeHyphensL ((t.drop m).take n) = (t.drop m).take n := by
    intro m n
    apply removeHyphensL_of_forall
    intro c hc
    exact hmem c (List.mem_of_mem_drop (List.mem_of_mem_take hc))
  have htake : removeHyphensL (t.take 8) = t.take 8 := by
    apply removeHyphensL_of_forall
    intro c hc
    exact hmem c (List.mem_of_mem_take hc)
  have hstep : ∀ (l : List Char), removeHyphensL ('-' :: l) = removeHyphensL l := by
    intro l
    simp [removeHyphensL]
  calc removeHyphensL (formatGuidL t)
      = removeHyphensL (t.take 8) ++ (removeHyphensL ((t.drop 8).take 4) ++ (removeHyphensL ((t.drop 12).take 4) ++ (removeHyphensL ((t.drop 16).take 4) ++ removeHyphensL ((t.drop 20).take 12)))) := by
        simp [formatGuidL, removeHyphensL, List.filter_append]
    _ = t.take 8 ++ ((t.drop 8).take 4 ++ ((t.drop 12).take 4 ++ ((t.drop 16).take 4 ++ (t.drop 20).take 12))) := by
        rw [htake, hpiece, hpiece, hpiece, hpiece]
    _ = t := chunks_assemble t hlen

theorem formatGuidL_ne_nil (t : List Char) : formatGuidL t ≠ [] := by
  simp [formatGuidL]

theorem normalize_guid_eq_format (s : String) (hs : s ≠ "")
    (h32 : (removeHyphensL s.data).length = 32) :
    normalize_guid s = String.mk (formatGuidL (removeHyphensL s.data)) := by
  unfold normalize_guid
  simp [hs, h32]

theorem normalize_guid_eq_strip (s : String) (hs : s ≠ "")
    (h32 : (removeHyphensL s.data).length ≠ 32) :
    normalize_guid s = String.mk (removeHyphensL s.data) := by
  unfold normalize_guid
  simp [hs, h32]

theorem normalize_guid_idem (s : String) :
    normalize_guid (normalize_guid s) = normalize_guid s := by
  by_cases hs : s = ""
  · subst hs
    decide
  · by_cases h32 : (removeHyphensL s.data).length = 32
    · rw [normalize_guid_eq_format s hs h32]
      have hne : String.mk (formatGuidL (removeHyphensL s.data)) ≠ "" := by
        intro hcontra
        apply formatGuidL_ne_nil (removeHyphensL s.data)
        have := congrArg String.data hcontra
        simpa using this
      have hstrip : removeHyphensL (String.mk (formatGuidL (removeHyphensL s.data))).data = removeHyphensL s.data := by
        show removeHyphensL (formatGuidL (removeHyphensL s.data)) = removeHyphensL s.data
        exact removeHyphensL_formatGuidL _ h32 (removeHyphensL_idem s.data)
      rw [normalize_guid_eq_format _ hne (by rw [hstrip]; exact h32), hstrip]
    · rw [normalize_guid_eq_strip s hs h32]
      by_cases hnil : removeHyphensL s.data = []
      · rw [hnil]
        decide
      · have hne : String.mk (removeHyphensL s.data) ≠ "" := by
          intro hcontra
          apply hnil
          have := congrArg String.data hcontra
          simpa using this
        have hstrip : removeHyphensL (String.mk (removeHyphensL s.data)).data = removeHyphensL s.data := by
          show removeHyphensL (removeHyphensL s.data) = removeHyphensL s.data
          exact removeHyphensL_idem s.data
        rw [normalize_guid_eq_strip _ hne (by rw [hstrip]; exact h32), hstrip]

theorem applyDeletes_nofail (st : List Assignment) (ns : List String) :
    applyDeletes (fun _ => false) st ns = st.filter (fun b => ns.all (fun m => b.name != m)) := by
  induction ns generalizing st with
  | nil => simp [applyDeletes]
  | cons n rest ih =>
    rw [show applyDeletes (fun _ => false) st (n :: rest) = applyDeletes (fun _ => false) (st.filter (fun b => b.name != n)) rest from rfl]
    rw [ih, List.filter_filter]
    apply List.filter_congr
    intro x _
    simp [List.all_cons, Bool.and_comm]

theorem mem_filter_names {x : Assignment} {st : List Assignment} {ns : List String} :
    x ∈ st.filter (fun b => ns.all (fun m => b.name != m)) ↔ x ∈ st ∧ ∀ m ∈ ns, x.name ≠ m := by
  rw [List.mem_filter]
  simp [List.all_eq_true]

theorem reconcile_noop (assignments : List Assignment) (role_definition_id principal_id n : String)
    (deleteFails : String → Bool)
    (hEx : assignments.any (fun a => a.principalId == principal_id && a.roleDefinitionId == role_definition_id) = true)
    (hRed : strContains role_definition_id ownerRoleId = true →
      assignments.filter (fun a => a.principalId == principal_id && a.roleDefinitionId != role_definition_id) = []) :
    reconcile_at_scope assignments role_definition_id principal_id .ok deleteFails n =
      { success := true, creates := 0, deletes := [], finalAssignments := assignments } := by
  by_cases ho : strContains role_definition_id ownerRoleId = true
  · have hred := hRed ho
    simp [reconcile_at_scope, ho, hEx, hred]
  · rw [Bool.not_eq_true] at ho
    by_cases hskip : (!strContains role_definition_id ownerRoleId && assignments.any (fun a => a.principalId == principal_id && strContains a.roleDefinitionId ownerRoleId) && !strContains role_definition_id adminRoleId) = true
    · simp [reconcile_at_scope, hskip]
    · rw [Bool.not_eq_true] at hskip
      simp [reconcile_at_scope, hskip, ho, hEx]

theorem reconcile_idem_core (assignments : List Assignment) (role_definition_id principal_id n1 n2 : String)
    (hnodup : (assignments.map (fun x => x.name)).Nodup)
    (hfresh : ¬ n1 ∈ assignments.map (fun x => x.name)) :
    (reconcile_at_scope assignments role_definition_id principal_id .ok (fun _ => false) n1).success = true ∧
    reconcile_at_scope (reconcile_at_scope assignments role_definition_id principal_id .ok (fun _ => false) n1).finalAssignments role_definition_id principal_id .ok (fun _ => false) n2 =
      { success := true, creates := 0, deletes := [],
        finalAssignments := (reconcile_at_scope assignments role_definition_id principal_id .ok (fun _ => false) n1).finalAssignments } := by
  by_cases hskip : (!strContains role_definition_id ownerRoleId && assignments.any (fun a => a.principalId == principal_id && strContains a.roleDefinitionId ownerRoleId) && !strContains role_definition_id adminRoleId) = true
  · have h1 : reconcile_at_scope assignments role_definition_id principal_id .ok (fun _ => false) n1 =
        { success := true, creates := 0, deletes := [], finalAssignments := assignments } := by
      simp [reconcile_at_scope, hskip]
    rw [h1]
    exact ⟨rfl, by simp [reconcile_at_scope, hskip]⟩
  · rw [Bool.not_eq_true] at hskip
    by_cases hra : assignments.any (fun a => a.principalId == principal_id && a.roleDefinitionId == role_definition_id) = true
    · obtain ⟨a0, ha0mem, ha0p⟩ := List.any_eq_true.mp hra
      rw [Bool.and_eq_true] at ha0p
      by_cases ho : strContains role_definition_id ownerRoleId = true
      · by_cases hre : assignments.filter (fun a => a.principalId == principal_id && a.roleDefinitionId != role_definition_id) = []
        · rw [reconcile_noop assignments role_definition_id principal_id n1 (fun _ => false) hra (fun _ => hre)]
          exact ⟨rfl, reconcile_noop assignments role_definition_id principal_id n2 (fun _ => false) hra (fun _ => hre)⟩
        · have hrne : (assignments.filter (fun a => a.principalId == principal_id && a.roleDefinitionId != role_definition_id)).isEmpty = false := by
            rcases h : assignments.filter (fun a => a.principalId == principal_id && a.roleDefinitionId != role_definition_id) with _ | _
            · exact absurd h hre
            · rw [h]
              rfl
          have h1 : reconcile_at_scope assignments role_definition_id principal_id .ok (fun _ => false) n1 =
              { success := true, creates := 0,
                deletes := (assignments.filter (fun a => a.principalId == principal_id && a.roleDefinitionId != role_definition_id)).map (fun x => x.name),
                finalAssignments := applyDeletes (fun _ => false) assignments ((assignments.filter (fun a => a.principalId == principal_id && a.roleDefinitionId != role_definition_id)).map (fun x => x.name)) } := by
            simp [reconcile_at_scope, ho, hra, hrne]
          rw [h1, applyDeletes_nofail]
          refine ⟨rfl, reconcile_noop _ _ _ _ _ ?_ ?_⟩
          · rw [List.any_eq_true]
            refine ⟨a0, ?_, by simp [ha0p.1, ha0p.2]⟩
            rw [mem_filter_names]
            refine ⟨ha0mem, ?_⟩
            intro m hm hcontra
            obtain ⟨r, hrmem, hrname⟩ := List.mem_map.mp hm
            have hrf := List.mem_filter.mp hrmem
            have heq : a0 = r := List.inj_on_of_nodup_map hnodup ha0mem hrf.1 (by rw [hcontra, hrname])
            have hrne2 : (r.roleDefinitionId != role_definition_id) = true := by
              have hp := hrf.2
              rw [Bool.and_eq_true] at hp
              exact hp.2
            rw [bne_iff_ne] at hrne2
            rw [← heq] at hrne2
            exact hrne2 (by simpa using ha0p.2)
          · intro _
            rw [List.filter_eq_nil_iff]
            intro x hx hpx
            rw [mem_filter_names] at hx
            have hxred : x ∈ assignments.filter (fun a => a.principalId == principal_id && a.roleDefinitionId != role_definition_id) :=
              List.mem_filter.mpr ⟨hx.1, hpx⟩
            exact hx.2 x.name (List.mem_map_of_mem _ hxred) rfl
      · rw [Bool.not_eq_true] at ho
        have h1 : reconcile_at_scope assignments role_definition_id principal_id .ok (fun _ => false) n1 =
            { success := true, creates := 0, deletes := [], finalAssignments := assignments } := by
          simp [reconcile_at_scope, hskip, ho, hra]
        rw [h1]
        refine ⟨rfl, reconcile_noop _ _ _ _ _ hra ?_⟩
        intro hcontra
        rw [ho] at hcontra
        exact absurd hcontra (by decide)
    · rw [Bool.not_eq_true] at hra
      by_cases ho : strContains role_definition_id ownerRoleId = true
      · by_cases hre : assignments.filter (fun a => a.principalId == principal_id && a.roleDefinitionId != role_definition_id) = []
        · have h1 : reconcile_at_scope assignments role_definition_id principal_id .ok (fun _ => false) n1 =
              { success := true, creates := 1, deletes := [],
                finalAssignments := assignments ++ [{ name := n1, roleDefinitionId := role_definition_id, principalId := principal_id }] } := by
            simp [reconcile_at_scope, hskip, ho, hra, hre]
          rw [h1]
          refine ⟨rfl, reconcile_noop _ _ _ _ _ ?_ ?_⟩
          · rw [List.any_eq_true]
            exact ⟨{ name := n1, roleDefinitionId := role_definition_id, principalId := principal_id },
              List.mem_append_right _ (List.mem_singleton.mpr rfl), by simp⟩
          · intro _
            rw [List.filter_append, hre]
            simp
        · have hrne : (assignments.filter (fun a => a.principalId == principal_id && a.roleDefinitionId != role_definition_id)).isEmpty = false := by
            rcases h : assignments.filter (fun a => a.principalId == principal_id && a.roleDefinitionId != role_definition_id) with _ | _
            · exact absurd h hre
            · rw [h]
              rfl
          have h1 : reconcile_at_scope assignments role_definition_id principal_id .ok (fun _ => false) n1 =
              { success := true, creates := 1,
                deletes := (assignments.filter (fun a => a.principalId == principal_id && a.roleDefinitionId != role_definition_id)).map (fun x => x.name),
                finalAssignments := applyDeletes (fun _ => false)
                  (assignments ++ [{ name := n1, roleDefinitionId := role_definition_id, principalId := principal_id }])
                  ((assignments.filter (fun a => a.principalId == principal_id && a.roleDefinitionId != role_definition_id)).map (fun x => x.name)) } := by
            simp [reconcile_at_scope, hskip, ho, hra, hrne]
          rw [h1, applyDeletes_nofail]
          refine ⟨rfl, reconcile_noop _ _ _ _ _ ?_ ?_⟩
          · rw [List.any_eq_true]
            refine ⟨{ name := n1, roleDefinitionId := role_definition_id, principalId := principal_id }, ?_, by simp⟩
            rw [mem_filter_names]
            refine ⟨List.mem_append_right _ (List.mem_singleton.mpr rfl), ?_⟩
            intro m hm hcontra
            obtain ⟨r, hrmem, hrname⟩ := List.mem_map.mp hm
            have hrf := List.mem_filter.mp hrmem
            apply hfresh
            rw [List.mem_map]
            exact ⟨r, hrf.1, by rw [hrname, ← hcontra]⟩
          · intro _
            rw [List.filter_eq_nil_iff]
            intro x hx hpx
            rw [mem_filter_names] at hx
            rcases List.mem_append.mp hx.1 with hxa | hxw
            · have hxred : x ∈ assignments.filter (fun a => a.principalId == principal_id && a.roleDefinitionId != role_definition_id) :=
                List.mem_filter.mpr ⟨hxa, hpx⟩
              exact hx.2 x.name (List.mem_map_of_mem _ hxred) rfl
            · rw [List.mem_singleton.mp hxw] at hpx
              simp at hpx
      · rw [Bool.not_eq_true] at ho
        have hskip2 : ((assignments.any fun a => a.principalId == principal_id && strContains a.roleDefinitionId ownerRoleId) && !strContains role_definition_id adminRoleId) = false := by
          rw [ho] at hskip
          simpa using hskip
        have h1 : reconcile_at_scope assignments role_definition_id principal_id .ok (fun _ => false) n1 =
            { success := true, creates := 1, deletes := [],
              finalAssignments := assignments ++ [{ name := n1, roleDefinitionId := role_definition_id, principalId := principal_id }] } := by
          simp [reconcile_at_scope, hskip2, ho, hra]
        rw [h1]
        refine ⟨rfl, reconcile_noop _ _ _ _ _ ?_ ?_⟩
        · rw [List.any_eq_true]
          exact ⟨{ name := n1, roleDefinitionId := role_definition_id, principalId := principal_id },
            List.mem_append_right _ (List.mem_singleton.mpr rfl), by simp⟩
        · intro hcontra
          rw [ho] at hcontra
          exact absurd hcontra (by decide)

/-! ## Claims -/

/-- C3: the claim "a 32-hex-digit input, with or without separators,
normalizes to the hyphenated canonical form; any input whose hex-digit
length is not 32 is returned unchanged" is false at the input `"abc-def"`:
its hex-digit length is 6, yet `_normalize_guid` removes the hyphens first
and returns the stripped string `"abcdef"`, not the input unchanged. -/
theorem C3_counterexample_passthrough_changes_input :
    ("abc-def".data.filter isHexDigitB).length ≠ 32 ∧
    normalize_guid "abc-def" ≠ "abc-def" ∧
    normalize_guid "abc-def" = "abcdef" := by
  decide

/-- C3 (amended): an input that has exactly 32 characters once hyphens are
removed normalizes to the canonical 8-4-4-4-12 hyphenation of those 32
characters; any other input is returned with all hyphens removed (hence
unchanged only when it contains none).  The concrete conjuncts instantiate
the spec's example `12345678-1234-1234-1234-123456789abc`. -/
theorem C3_normalize_guid_amended (s : String) :
    ((removeHyphensL s.data).length = 32 →
      normalize_guid s = String.mk (formatGuidL (removeHyphensL s.data))) ∧
    ((removeHyphensL s.data).length ≠ 32 →
      normalize_guid s = String.mk (removeHyphensL s.data)) ∧
    normalize_guid "12345678123412341234123456789abc" = "12345678-1234-1234-1234-123456789abc" ∧
    normalize_guid "12345678-1234-1234-1234-123456789abc" = "12345678-1234-1234-1234-123456789abc" := by
  refine ⟨?_, ?_, by decide, by decide⟩
  · intro h32
    by_cases hs : s = ""
    · subst hs
      simp [removeHyphensL] at h32
    · unfold normalize_guid
      simp [hs, h32]
  · intro h32
    by_cases hs : s = ""
    · subst hs
      apply String.ext
      simp [normalize_guid, removeHyphensL]
    · unfold normalize_guid
      simp [hs, h32]

/-- C3 witness: the amended theorem applied at a canonical-length input and
at the passthrough input `"abc-def"`. -/
theorem C3_normalize_guid_amended_witness :
    normalize_guid "12345678-1234-1234-1234-123456789abc" = String.mk (formatGuidL (removeHyphensL "12345678-1234-1234-1234-123456789abc".data)) ∧
    normalize_guid "abc-def" = String.mk (removeHyphensL "abc-def".data) :=
  ⟨(C3_normalize_guid_amended "12345678-1234-1234-1234-123456789abc").1 (by decide),
   (C3_normalize_guid_amended "abc-def").2.1 (by decide)⟩

/-- C10: `_normalize_guid` is idempotent — normalizing an already normalized
principal id is a fixed point, for every input string. -/
theorem C10_normalize_guid_idempotent (s : String) :
    normalize_guid (normalize_guid s) = normalize_guid s :=
  normalize_guid_idem s

/-- C1 (code bug): in the scenario of the repository's own
`test_vault_creator_verification_failure` — the vault's `CreatedByID` tag is
`"different-user-id"` while the caller is `"test-user-id"` — the run is NOT
denied: because `get_vault_info` is invoked without `await` at
`function_app.py` line 121, the bound coroutine fails the `isinstance` dict
test, the tags are read as empty, the creator check takes the warning path,
both vault role reconciliations are issued, and the response carries a null
`isCreator` instead of the authorization-denied outcome the claim (and the
repository's tests) require. -/
theorem C1_creator_mismatch_not_denied :
    direct_vault_rbac_processor
      { assignRole := fun _ => true, discovered := [], storageAssign := fun _ => [] }
      (PyVaultValue.coroutine (some { tags := [("CreatedByID", "different-user-id")] }))
      "test-user-id" "sub-1"
    = (OrchResult.completed ⟨true, true, true, none, 0, [], true⟩,
       [Call.assignVaultRole (roleDefinitionPath "sub-1" ownerRoleId),
        Call.assignVaultRole (roleDefinitionPath "sub-1" adminRoleId),
        Call.discoverStorage]) := by
  rfl

/-- C8: the name-match predicate holds exactly when the lowercased storage
name contains one of the four patterns built from the lowercased vault name,
and the spec's six concrete examples for vault "finance" behave as stated. -/
theorem C8_naming_convention_characterization (storage_name vault_name : String) :
    (matches_naming_convention storage_name vault_name = true ↔
      (strContains (lowerStr storage_name) (lowerStr vault_name ++ "storage") = true ∨
       strContains (lowerStr storage_name) (lowerStr vault_name ++ "stor") = true ∨
       strContains (lowerStr storage_name) ("stor" ++ lowerStr vault_name) = true ∨
       strContains (lowerStr storage_name) (lowerStr vault_name ++ "st") = true)) ∧
    matches_naming_convention "financestorage" "finance" = true ∧
    matches_naming_convention "financestor" "finance" = true ∧
    matches_naming_convention "storfinance" "finance" = true ∧
    matches_naming_convention "financest" "finance" = true ∧
    matches_naming_convention "financeappstorage" "finance" = false ∧
    matches_naming_convention "storage" "finance" = false := by
  refine ⟨?_, by decide, by decide, by decide, by decide, by decide, by decide⟩
  simp [matches_naming_convention]

/-- C9: the vault-role-to-storage-role table — a vault role id carrying the
Owner guid maps to exactly the pair (Storage Account Contributor, Storage
Blob Data Owner); one carrying the Administrator guid (and not the Owner
guid) maps to exactly Storage Blob Data Contributor; any other role id maps
to the empty list, which the code treats as "nothing to do", not an error. -/
theorem C9_role_mapping_table (vault_role_id : String) :
    (strContains vault_role_id ownerRoleId = true →
      get_storage_role_assignments_for_vault_role vault_role_id =
        [STORAGE_ACCOUNT_CONTRIBUTOR_ROLE_ID, STORAGE_BLOB_DATA_OWNER_ROLE_ID]) ∧
    (strContains vault_role_id ownerRoleId = false →
      strContains vault_role_id adminRoleId = true →
      get_storage_role_assignments_for_vault_role vault_role_id =
        [STORAGE_BLOB_DATA_CONTRIBUTOR_ROLE_ID]) ∧
    (strContains vault_role_id ownerRoleId = false →
      strContains vault_role_id adminRoleId = false →
      get_storage_role_assignments_for_vault_role vault_role_id = []) := by
  unfold get_storage_role_assignments_for_vault_role
  refine ⟨fun h1 => ?_, fun h1 h2 => ?_, fun h1 h2 => ?_⟩ <;> simp [h1]
  · simp [h2]
  · simp [h2]

/-- C9 witness: the table evaluated at the role-definition paths the
orchestrator builds and at an unrelated role id. -/
theorem C9_role_mapping_table_witness :
    get_storage_role_assignments_for_vault_role (roleDefinitionPath "sub-1" ownerRoleId) =
      [STORAGE_ACCOUNT_CONTRIBUTOR_ROLE_ID, STORAGE_BLOB_DATA_OWNER_ROLE_ID] ∧
    get_storage_role_assignments_for_vault_role (roleDefinitionPath "sub-1" adminRoleId) =
      [STORAGE_BLOB_DATA_CONTRIBUTOR_ROLE_ID] ∧
    get_storage_role_assignments_for_vault_role "b24988ac-6180-42a0-ab88-20f7382dd24c" = [] :=
  ⟨(C9_role_mapping_table _).1 (by decide),
   (C9_role_mapping_table _).2.1 (by decide) (by decide),
   (C9_role_mapping_table _).2.2 (by decide) (by decide)⟩

/-- C7: discovery membership — when no account in the resource group is
tag-matched or name-matched and the group is non-empty, all account ids are
returned (fallback-all); when at least one account matches, exactly the
matched accounts' ids are returned. -/
theorem C7_discovery_fallback_all (accounts_in_rg : List StorageAccount) (vault_name : String) :
    (accounts_in_rg ≠ [] →
      (∀ a ∈ accounts_in_rg, tagMatch a vault_name = false ∧ matches_naming_convention a.name vault_name = false) →
      discover_associated_storage_accounts accounts_in_rg vault_name = accounts_in_rg.map (fun a => a.id)) ∧
    ((∃ a ∈ accounts_in_rg, tagMatch a vault_name = true ∨ matches_naming_convention a.name vault_name = true) →
      discover_associated_storage_accounts accounts_in_rg vault_name =
        (accounts_in_rg.filter (fun a => tagMatch a vault_name || matches_naming_convention a.name vault_name)).map (fun a => a.id)) := by
  constructor
  · intro hne hall
    have hfil : accounts_in_rg.filter (fun a => tagMatch a vault_name || matches_naming_convention a.name vault_name) = [] := by
      rw [List.filter_eq_nil_iff]
      intro a ha
      have := hall a ha
      simp [this.1, this.2]
    unfold discover_associated_storage_accounts
    simp [hfil, hne]
  · intro hex
    obtain ⟨a, ha, hm⟩ := hex
    have hfil : accounts_in_rg.filter (fun a => tagMatch a vault_name || matches_naming_convention a.name vault_name) ≠ [] := by
      intro hcontra
      have : a ∈ accounts_in_rg.filter (fun a => tagMatch a vault_name || matches_naming_convention a.name vault_name) := by
        rw [List.mem_filter]
        refine ⟨ha, ?_⟩
        rcases hm with h | h <;> simp [h]
      rw [hcontra] at this
      exact absurd this (List.not_mem_nil a)
    unfold discover_associated_storage_accounts
    simp [hfil]

/-- C7 witness: three unmatched accounts fall back to all three ids; a
tag-matched group yields only the matched id. -/
theorem C7_discovery_fallback_all_witness :
    discover_associated_storage_accounts
      [{ id := "i1", name := "alpha", tags := [] },
       { id := "i2", name := "beta", tags := [] },
       { id := "i3", name := "gamma", tags := [] }] "finance" = ["i1", "i2", "i3"] ∧
    discover_associated_storage_accounts
      [{ id := "i1", name := "alpha", tags := [("AssociatedVault", "finance")] },
       { id := "i2", name := "beta", tags := [] }] "finance" = ["i1"] :=
  ⟨(C7_discovery_fallback_all _ "finance").1 (by decide) (by decide),
   (C7_discovery_fallback_all _ "finance").2
     ⟨{ id := "i1", name := "alpha", tags := [("AssociatedVault", "finance")] }, by decide, Or.inl (by decide)⟩⟩

/-- C5: when the principal already holds Owner at the scope and the target
is a non-Owner vault role, the run is treated as satisfied without creating
anything — except when the target is the Administrator role, which is still
created (one create call) unless the exact Administrator assignment already
exists, in which case nothing is created either. -/
theorem C5_owner_shortcut_admin_exception (assignments : List Assignment)
    (role_definition_id principal_id : String) (createRes : CreateResult)
    (deleteFails : String → Bool) (freshName : String)
    (hOwnerHeld : assignments.any (fun a => a.principalId == principal_id && strContains a.roleDefinitionId ownerRoleId) = true)
    (hNotOwnerTarget : strContains role_definition_id ownerRoleId = false) :
    (strContains role_definition_id adminRoleId = false →
      reconcile_at_scope assignments role_definition_id principal_id createRes deleteFails freshName =
        { success := true, creates := 0, deletes := [], finalAssignments := assignments }) ∧
    (strContains role_definition_id adminRoleId = true →
      assignments.any (fun a => a.principalId == principal_id && a.roleDefinitionId == role_definition_id) = false →
      createRes = .ok →
      reconcile_at_scope assignments role_definition_id principal_id createRes deleteFails freshName =
        { success := true, creates := 1, deletes := [],
          finalAssignments := assignments ++ [{ name := freshName, roleDefinitionId := role_definition_id, principalId := principal_id }] }) ∧
    (strContains role_definition_id adminRoleId = true →
      assignments.any (fun a => a.principalId == principal_id && a.roleDefinitionId == role_definition_id) = true →
      reconcile_at_scope assignments role_definition_id principal_id createRes deleteFails freshName =
        { success := true, creates := 0, deletes := [], finalAssignments := assignments }) := by
  refine ⟨fun hAdm => ?_, fun hAdm hNotYet hOk => ?_, fun hAdm hAlready => ?_⟩
  · simp [reconcile_at_scope, hOwnerHeld, hNotOwnerTarget, hAdm]
  · subst hOk
    simp [reconcile_at_scope, hOwnerHeld, hNotOwnerTarget, hAdm, hNotYet]
  · simp [reconcile_at_scope, hOwnerHeld, hNotOwnerTarget, hAdm, hAlready]

/-- C5 witness: with Owner already held, a plain lesser role is skipped with
no create; the Administrator role is still created; an already-present
Administrator assignment is not re-created. -/
theorem C5_owner_shortcut_admin_exception_witness :
    (reconcile_at_scope [{ name := "n0", roleDefinitionId := roleDefinitionPath "s" ownerRoleId, principalId := "p" }]
      "b24988ac-6180-42a0-ab88-20f7382dd24c" "p" .ok (fun _ => false) "n1" =
      { success := true, creates := 0, deletes := [],
        finalAssignments := [{ name := "n0", roleDefinitionId := roleDefinitionPath "s" ownerRoleId, principalId := "p" }] }) ∧
    (reconcile_at_scope [{ name := "n0", roleDefinitionId := roleDefinitionPath "s" ownerRoleId, principalId := "p" }]
      (roleDefinitionPath "s" adminRoleId) "p" .ok (fun _ => false) "n1" =
      { success := true, creates := 1, deletes := [],
        finalAssignments := [{ name := "n0", roleDefinitionId := roleDefinitionPath "s" ownerRoleId, principalId := "p" },
          { name := "n1", roleDefinitionId := roleDefinitionPath "s" adminRoleId, principalId := "p" }] }) ∧
    (reconcile_at_scope [{ name := "n0", roleDefinitionId := roleDefinitionPath "s" ownerRoleId, principalId := "p" },
        { name := "n2", roleDefinitionId := roleDefinitionPath "s" adminRoleId, principalId := "p" }]
      (roleDefinitionPath "s" adminRoleId) "p" .ok (fun _ => false) "n1" =
      { success := true, creates := 0, deletes := [],
        finalAssignments := [{ name := "n0", roleDefinitionId := roleDefinitionPath "s" ownerRoleId, principalId := "p" },
          { name := "n2", roleDefinitionId := roleDefinitionPath "s" adminRoleId, principalId := "p" }] }) :=
  ⟨(C5_owner_shortcut_admin_exception _ _ _ _ _ _ (by decide) (by decide)).1 (by decide),
   (C5_owner_shortcut_admin_exception _ _ _ _ _ _ (by decide) (by decide)).2.1 (by decide) (by decide) rfl,
   (C5_owner_shortcut_admin_exception _ _ _ _ _ _ (by decide) (by decide)).2.2 (by decide) (by decide)⟩

/-- C4 (counterexample): the claim "granting Owner deletes the held
Administrator assignment exactly once" fails on the conflict path.  With one
Administrator assignment held and the Owner create call answered by a
provider "already exists" conflict, the exception raised by `create` jumps
straight to the handler (`vault_role_manager.py` lines 203-207), skipping
the deletion loop of lines 187-198: the run still reports success, but zero
delete calls are issued. -/
theorem C4_counterexample_conflict_skips_cleanup :
    (reconcile_at_scope [{ name := "n0", roleDefinitionId := roleDefinitionPath "s" adminRoleId, principalId := "p" }]
      (roleDefinitionPath "s" ownerRoleId) "p"
      (.httpErr "RoleAssignmentExists: The role assignment already exists.") (fun _ => false) "n1").success = true ∧
    (reconcile_at_scope [{ name := "n0", roleDefinitionId := roleDefinitionPath "s" adminRoleId, principalId := "p" }]
      (roleDefinitionPath "s" ownerRoleId) "p"
      (.httpErr "RoleAssignmentExists: The role assignment already exists.") (fun _ => false) "n1").deletes.count "n0" = 0 := by
  decide

/-- C4 (amended): granting Owner to a principal that holds an Administrator
assignment at the scope issues exactly one delete call for that assignment
when the create call succeeds (or when the exact Owner assignment is already
listed, where no create is attempted), and the run reports success whatever
the delete oracle does — a failing delete never flips the Owner grant to
failure.  But when the create call fails with a provider "already exists"
conflict, the run is treated as success while the deletion loop is skipped
entirely: zero delete calls are issued. -/
theorem C4_redundant_admin_deleted_once (assignments : List Assignment)
    (role_definition_id principal_id : String)
    (deleteFails : String → Bool) (freshName : String) (a : Assignment)
    (hnodup : (assignments.map (fun x => x.name)).Nodup)
    (hOwnerTarget : strContains role_definition_id ownerRoleId = true)
    (hmem : a ∈ assignments)
    (hpid : a.principalId = principal_id)
    (hadmin : strContains a.roleDefinitionId adminRoleId = true)
    (hne : a.roleDefinitionId ≠ role_definition_id) :
    ((reconcile_at_scope assignments role_definition_id principal_id .ok deleteFails freshName).deletes.count a.name = 1 ∧
     (reconcile_at_scope assignments role_definition_id principal_id .ok deleteFails freshName).success = true) ∧
    (∀ msg, strContains msg "already exists" = true →
      assignments.any (fun x => x.principalId == principal_id && x.roleDefinitionId == role_definition_id) = false →
      (reconcile_at_scope assignments role_definition_id principal_id (.httpErr msg) deleteFails freshName).deletes = [] ∧
      (reconcile_at_scope assignments role_definition_id principal_id (.httpErr msg) deleteFails freshName).success = true) := by
  have hared : a ∈ assignments.filter (fun x => x.principalId == principal_id && x.roleDefinitionId != role_definition_id) := by
    rw [List.mem_filter]
    exact ⟨hmem, by simp [hpid, hne]⟩
  have hsub : ((assignments.filter (fun x => x.principalId == principal_id && x.roleDefinitionId != role_definition_id)).map (fun x => x.name)).Sublist (assignments.map (fun x => x.name)) :=
    List.Sublist.map (fun x => x.name) (List.filter_sublist assignments)
  have hrednodup : ((assignments.filter (fun x => x.principalId == principal_id && x.roleDefinitionId != role_definition_id)).map (fun x => x.name)).Nodup :=
    List.Nodup.sublist hsub hnodup
  have hcount : ((assignments.filter (fun x => x.principalId == principal_id && x.roleDefinitionId != role_definition_id)).map (fun x => x.name)).count a.name = 1 :=
    List.count_eq_one_of_mem hrednodup (List.mem_map_of_mem _ hared)
  have hrne : (assignments.filter (fun x => x.principalId == principal_id && x.roleDefinitionId != role_definition_id)).isEmpty = false := by
    rcases h : assignments.filter (fun x => x.principalId == principal_id && x.roleDefinitionId != role_definition_id) with _ | _
    · rw [h] at hared
      exact absurd hared (List.not_mem_nil a)
    · rw [h]
      rfl
  refine ⟨?_, fun msg hmsg hra => ?_⟩
  · by_cases hra : assignments.any (fun x => x.principalId == principal_id && x.roleDefinitionId == role_definition_id) = true
    · constructor <;> simp [reconcile_at_scope, hOwnerTarget, hra, hrne, hcount]
    · rw [Bool.not_eq_true] at hra
      constructor <;> simp [reconcile_at_scope, hOwnerTarget, hra, hrne, hcount]
  · constructor <;> simp [reconcile_at_scope, hOwnerTarget, hra, hmsg]

/-- C4 witness: one Administrator assignment at the scope, Owner granted.
With a succeeding create and the delete oracle made to fail on everything,
the delete on the Administrator assignment's name is issued exactly once and
the outcome is still success; with an "already exists" conflict on the
create, the outcome is success with no delete call at all. -/
theorem C4_redundant_admin_deleted_once_witness :
    ((reconcile_at_scope [{ name := "n0", roleDefinitionId := roleDefinitionPath "s" adminRoleId, principalId := "p" }]
      (roleDefinitionPath "s" ownerRoleId) "p" .ok (fun _ => true) "n1").deletes.count "n0" = 1 ∧
    (reconcile_at_scope [{ name := "n0", roleDefinitionId := roleDefinitionPath "s" adminRoleId, principalId := "p" }]
      (roleDefinitionPath "s" ownerRoleId) "p" .ok (fun _ => true) "n1").success = true) ∧
    ((reconcile_at_scope [{ name := "n0", roleDefinitionId := roleDefinitionPath "s" adminRoleId, principalId := "p" }]
      (roleDefinitionPath "s" ownerRoleId) "p" (.httpErr "The role assignment already exists.") (fun _ => true) "n1").deletes = [] ∧
    (reconcile_at_scope [{ name := "n0", roleDefinitionId := roleDefinitionPath "s" adminRoleId, principalId := "p" }]
      (roleDefinitionPath "s" ownerRoleId) "p" (.httpErr "The role assignment already exists.") (fun _ => true) "n1").success = true) :=
  ⟨(C4_redundant_admin_deleted_once _ _ _ _ _
      { name := "n0", roleDefinitionId := roleDefinitionPath "s" adminRoleId, principalId := "p" }
      (by decide) (by decide) (by decide) rfl (by decide) (by decide)).1,
   (C4_redundant_admin_deleted_once _ _ _ _ _
      { name := "n0", roleDefinitionId := roleDefinitionPath "s" adminRoleId, principalId := "p" }
      (by decide) (by decide) (by decide) rfl (by decide) (by decide)).2
     "The role assignment already exists." (by decide) (by decide)⟩

/-- C2: reconciliation is idempotent.  With the provider behaving
deterministically (the create succeeds, no delete fails) and an unused fresh
assignment name, a first run for a (scope, role, principal) triple succeeds,
and a second run for the identical triple over the resulting provider state
leaves the state exactly as the first run left it while issuing zero create
calls and zero delete calls. -/
theorem C2_reconciler_idempotent (isGuid : String → Bool) (resolveUpn : String → Option String)
    (assignments : List Assignment) (role_definition_id principal_id_in n1 n2 pid0 : String)
    (hres : (if isGuid principal_id_in then some principal_id_in else resolveUpn principal_id_in) = some pid0)
    (hnodup : (assignments.map (fun x => x.name)).Nodup)
    (hfresh : ¬ n1 ∈ assignments.map (fun x => x.name)) :
    (assign_role_to_user isGuid resolveUpn assignments role_definition_id principal_id_in .ok (fun _ => false) n1).success = true ∧
    (assign_role_to_user isGuid resolveUpn (assign_role_to_user isGuid resolveUpn assignments role_definition_id principal_id_in .ok (fun _ => false) n1).finalAssignments role_definition_id principal_id_in .ok (fun _ => false) n2).finalAssignments =
      (assign_role_to_user isGuid resolveUpn assignments role_definition_id principal_id_in .ok (fun _ => false) n1).finalAssignments ∧
    (assign_role_to_user isGuid resolveUpn (assign_role_to_user isGuid resolveUpn assignments role_definition_id principal_id_in .ok (fun _ => false) n1).finalAssignments role_definition_id principal_id_in .ok (fun _ => false) n2).creates = 0 ∧
    (assign_role_to_user isGuid resolveUpn (assign_role_to_user isGuid resolveUpn assignments role_definition_id principal_id_in .ok (fun _ => false) n1).finalAssignments role_definition_id principal_id_in .ok (fun _ => false) n2).deletes = [] := by
  have hu : ∀ (st : List Assignment) (nm : String),
      assign_role_to_user isGuid resolveUpn st role_definition_id principal_id_in .ok (fun _ => false) nm =
        reconcile_at_scope st role_definition_id (normalize_guid pid0) .ok (fun _ => false) nm := by
    intro st nm
    unfold assign_role_to_user
    rw [hres]
  simp only [hu]
  have hcore := reconcile_idem_core assignments role_definition_id (normalize_guid pid0) n1 n2 hnodup hfresh
  exact ⟨hcore.1, by rw [hcore.2], by rw [hcore.2], by rw [hcore.2]⟩

/-- C2 witness: empty initial provider state, Owner target, GUID principal —
the first run succeeds and the second is a no-mutation no-op. -/
theorem C2_reconciler_idempotent_witness :
    (assign_role_to_user (fun _ => true) (fun _ => none) [] (roleDefinitionPath "s" ownerRoleId) "11112222333344445555666677778888" .ok (fun _ => false) "n1").success = true ∧
    (assign_role_to_user (fun _ => true) (fun _ => none) (assign_role_to_user (fun _ => true) (fun _ => none) [] (roleDefinitionPath "s" ownerRoleId) "11112222333344445555666677778888" .ok (fun _ => false) "n1").finalAssignments (roleDefinitionPath "s" ownerRoleId) "11112222333344445555666677778888" .ok (fun _ => false) "n2").finalAssignments =
      (assign_role_to_user (fun _ => true) (fun _ => none) [] (roleDefinitionPath "s" ownerRoleId) "11112222333344445555666677778888" .ok (fun _ => false) "n1").finalAssignments ∧
    (assign_role_to_user (fun _ => true) (fun _ => none) (assign_role_to_user (fun _ => true) (fun _ => none) [] (roleDefinitionPath "s" ownerRoleId) "11112222333344445555666677778888" .ok (fun _ => false) "n1").finalAssignments (roleDefinitionPath "s" ownerRoleId) "11112222333344445555666677778888" .ok (fun _ => false) "n2").creates = 0 ∧
    (assign_role_to_user (fun _ => true) (fun _ => none) (assign_role_to_user (fun _ => true) (fun _ => none) [] (roleDefinitionPath "s" ownerRoleId) "11112222333344445555666677778888" .ok (fun _ => false) "n1").finalAssignments (roleDefinitionPath "s" ownerRoleId) "11112222333344445555666677778888" .ok (fun _ => false) "n2").deletes = [] :=
  C2_reconciler_idempotent (fun _ => true) (fun _ => none) [] (roleDefinitionPath "s" ownerRoleId)
    "11112222333344445555666677778888" "n1" "n2" "11112222333344445555666677778888" rfl (by decide) (by decide)

/-- C6: per-pair error policy and sibling independence.  On the create path,
an `HttpResponseError` whose message contains "already exists" or
"PrincipalNotFound" yields success, any other provider error yields a
`False` return (not a raised exception) — both for the storage reconciler
and for the vault reconciler — and the storage cascade records one boolean
per (account, role) pair for every account and mapped role, whatever the
individual pair outcomes are. -/
theorem C6_provider_error_policy (isGuid : String → Bool) (resolveUpn : String → Option String)
    (assignments : List Assignment) (role_definition_id principal_id_in freshName pid0 : String)
    (deleteFails : String → Bool)
    (hres : (if isGuid principal_id_in then some principal_id_in else resolveUpn principal_id_in) = some pid0)
    (hnm : assignments.any (fun a => a.principalId == normalize_guid pid0 && a.roleDefinitionId == role_definition_id) = false) :
    (∀ msg, (assign_role_to_storage_account isGuid resolveUpn assignments role_definition_id principal_id_in (.httpErr msg) freshName).1 =
      (strContains msg "already exists" || strContains msg "PrincipalNotFound")) ∧
    (assign_role_to_storage_account isGuid resolveUpn assignments role_definition_id principal_id_in .exc freshName).1 = false ∧
    ((!strContains role_definition_id ownerRoleId && assignments.any (fun a => a.principalId == normalize_guid pid0 && strContains a.roleDefinitionId ownerRoleId) && !strContains role_definition_id adminRoleId) = false →
      (∀ msg, (reconcile_at_scope assignments role_definition_id (normalize_guid pid0) (.httpErr msg) deleteFails freshName).success =
        (strContains msg "already exists" || strContains msg "PrincipalNotFound")) ∧
      (reconcile_at_scope assignments role_definition_id (normalize_guid pid0) .exc deleteFails freshName).success = false) ∧
    (∀ (perCall : String → String → Bool) (ids : List String) (vrid : String),
      ids ≠ [] → get_storage_role_assignments_for_vault_role vrid ≠ [] →
      (assign_storage_roles_to_user perCall ids vrid).map Prod.fst = ids.map lastSegment ∧
      ∀ e ∈ assign_storage_roles_to_user perCall ids vrid,
        e.2.map Prod.fst = get_storage_role_assignments_for_vault_role vrid) := by
  refine ⟨fun msg => ?_, ?_, fun hskip => ⟨fun msg => ?_, ?_⟩, fun perCall ids vrid hids hroles => ?_⟩
  · unfold assign_role_to_storage_account
    rw [hres]
    cases hae : strContains msg "already exists" <;> cases hpn : strContains msg "PrincipalNotFound" <;>
      simp [hnm, hae, hpn]
  · unfold assign_role_to_storage_account
    rw [hres]
    simp [hnm]
  · cases hae : strContains msg "already exists" <;> cases hpn : strContains msg "PrincipalNotFound" <;>
      simp [reconcile_at_scope, hskip, hnm, hae, hpn]
  · simp [reconcile_at_scope, hskip, hnm]
  · have hids' : ids.isEmpty = false := by
      rcases ids with _ | _
      · exact absurd rfl hids
      · rfl
    have hroles' : (get_storage_role_assignments_for_vault_role vrid).isEmpty = false := by
      rcases h : get_storage_role_assignments_for_vault_role vrid with _ | _
      · exact absurd h hroles
      · rfl
    constructor
    · simp [assign_storage_roles_to_user, hids', hroles', List.map_map, Function.comp]
    · intro e he
      simp only [assign_storage_roles_to_user, hids', hroles', Bool.false_eq_true, if_false, List.mem_map] at he
      obtain ⟨sid, _, hesid⟩ := he
      rw [← hesid, List.map_map]
      apply List.map_id''
      intro x
      rfl

/-- C6 witness: a conflict message and a replication-lag message count as
success, an unknown message is a recorded failure, the vault reconciler does
the same on its create path, and a cascade over one account with an
all-failing per-call oracle still records a boolean for each of the two
Owner-mapped storage roles. -/
theorem C6_provider_error_policy_witness :
    (assign_role_to_storage_account (fun _ => true) (fun _ => none) [] "rd" "11112222333344445555666677778888" (.httpErr "The role assignment already exists.") "n").1 = true ∧
    (assign_role_to_storage_account (fun _ => true) (fun _ => none) [] "rd" "11112222333344445555666677778888" (.httpErr "PrincipalNotFound: replication delay") "n").1 = true ∧
    (assign_role_to_storage_account (fun _ => true) (fun _ => none) [] "rd" "11112222333344445555666677778888" (.httpErr "InsufficientPermissions") "n").1 = false ∧
    (reconcile_at_scope [] "rd" (normalize_guid "11112222333344445555666677778888") (.httpErr "InsufficientPermissions") (fun _ => false) "n").success = false ∧
    (assign_storage_roles_to_user (fun _ _ => false) ["/subscriptions/s/a1"] (roleDefinitionPath "s" ownerRoleId)).map Prod.fst = ["a1"] := by
  have h := C6_provider_error_policy (fun _ => true) (fun _ => none) [] "rd" "11112222333344445555666677778888" "n" "11112222333344445555666677778888" (fun _ => false) rfl (by decide)
  refine ⟨?_, ?_, ?_, ?_, ?_⟩
  · rw [h.1 "The role assignment already exists."]
    decide
  · rw [h.1 "PrincipalNotFound: replication delay"]
    decide
  · rw [h.1 "InsufficientPermissions"]
    decide
  · rw [(h.2.2.1 (by decide)).1 "InsufficientPermissions"]
    decide
  · exact (h.2.2.2 (fun _ _ => false) ["/subscriptions/s/a1"] (roleDefinitionPath "s" ownerRoleId) (by decide) (by decide)).1
